import Mathlib

/-!
Shallow embedding of the query pipeline of the Grafana / Apache Ignite
datasource plugin (`src/module.ts`, `src/types.ts`).

The embedding models:
  * the request validator (three chained filters over the query targets),
  * the cache-existence check and the SQL execution phase of `DataSource.query`,
    with the issued GET requests recorded in a trace and the network modelled
    as an oracle from request URLs to REST responses,
  * the frame builder (the response callback that turns an execution response
    into a `MutableDataFrame`),
  * the field-type inference (`DataSource.getFields`),
  * the URL encoding of the SQL text (`encodeURIComponent` per the ECMAScript
    definition, followed by JavaScript `String.replace` with a string pattern,
    which replaces only the first occurrence),
  * the health probe (`DataSource.testDatasource`).

JavaScript-specific behaviour is modelled explicitly:
  * possibly-missing fields are `Option`s, and string concatenation with a
    missing value is concatenation with the text "undefined";
  * JavaScript values that can be `null` / `undefined` / a string are `JSVal`;
  * `err.message` on a thrown string primitive is `undefined` (`none`).
-/

/-- `FormatTypeValue` from `src/types.ts`. -/
inductive FormatTypeValue where
  | TIMESERIES
  | TABLE
deriving DecidableEq

/-- A JavaScript value as it appears in response payload cells and in the
`error` field of the version response: `null`, `undefined`, a string, a
number or a boolean. -/
inductive JSVal where
  | null
  | undefined
  | str (s : String)
  | num (n : Int)
  | bool (b : Bool)
deriving DecidableEq

/-- `IgniteQuery` from `src/types.ts`: the per-target query model. Fields that
can be absent at runtime (the validator tests them against `undefined`) are
`Option`s. -/
structure IgniteQuery where
  refId : String
  cacheName : Option String
  format : Option FormatTypeValue
  timeColumn : Option String
  query : Option String
deriving DecidableEq

/-- Grafana field types used by `getFields`. -/
inductive FieldType where
  | boolean
  | number
  | string
deriving DecidableEq

/-- The `{ name, type }` record returned per metadata entry by `getFields`. -/
structure FieldDescriptor where
  name : String
  type : FieldType
deriving DecidableEq

/-- One entry of `fieldsMetadata` in an execution response. -/
structure FieldMeta where
  fieldName : String
  fieldTypeName : String
deriving DecidableEq

/-- The `response` part of an execution response envelope:
`{ fieldsMetadata, items }`. -/
structure ExecPayload where
  fieldsMetadata : List FieldMeta
  items : List (List JSVal)
deriving DecidableEq

/-- The REST response envelope `{ successStatus, error, response }`. The size
check only inspects `successStatus` and `error`. -/
structure RestResponse where
  successStatus : Int
  error : String
  response : ExecPayload
deriving DecidableEq

/-- The Grafana `MutableDataFrame` as used by the plugin: a `refId`, the field
descriptors, and the appended rows. -/
structure MutableDataFrame where
  refId : String
  fields : List FieldDescriptor
  rows : List (List JSVal)
deriving DecidableEq

/-- JavaScript string coercion of a possibly-undefined string, as it happens
in `'...' + t.cacheName`: `undefined` turns into the text "undefined". -/
def jsStr : Option String → String
  | none => "undefined"
  | some s => s

/-- First filter of `DataSource.query` (`module.ts` lines 100-106): the cache
name must be defined and non-empty. -/
def validCache (t : IgniteQuery) : Bool :=
  match t.cacheName with
  | none => false
  | some s => s != ""

/-- Second filter (`module.ts` lines 110-124): the format must be defined, and
a time-series target must have a defined, non-empty time column. -/
def validFormat (t : IgniteQuery) : Bool :=
  match t.format with
  | none => false
  | some FormatTypeValue.TIMESERIES =>
    match t.timeColumn with
    | none => false
    | some s => s != ""
  | some FormatTypeValue.TABLE => true

/-- Third filter (`module.ts` lines 128-134): the query text must be defined
and non-empty. -/
def validQuery (t : IgniteQuery) : Bool :=
  match t.query with
  | none => false
  | some s => s != ""

/-- The request validator: the three chained `filter` calls of
`DataSource.query` (STEP #1). -/
def validTargets (targets : List IgniteQuery) : List IgniteQuery :=
  ((targets.filter validCache).filter validFormat).filter validQuery

/-- Modelled from the spec: the four required-field predicates of §4.1, as one
conjunction, used to compare the validator against its contract. -/
def specValidTarget (t : IgniteQuery) : Bool :=
  (match t.cacheName with | none => false | some s => s != "")
    && (match t.format with | none => false | some _ => true)
    && (match t.format with
        | some FormatTypeValue.TIMESERIES =>
          match t.timeColumn with | none => false | some s => s != ""
        | _ => true)
    && (match t.query with | none => false | some s => s != "")

/-- The `switch (field.fieldTypeName)` of `DataSource.getFields`
(`module.ts` lines 248-321). -/
def switchFieldType (s : String) : FieldType :=
  if s = "java.lang.Boolean" then FieldType.boolean
  else if s = "java.lang.Byte" then FieldType.number
  else if s = "java.lang.Double" then FieldType.number
  else if s = "java.lang.Float" then FieldType.number
  else if s = "java.lang.Integer" then FieldType.number
  else if s = "java.lang.Long" then FieldType.number
  else if s = "java.lang.Short" then FieldType.number
  else if s = "java.lang.String" then FieldType.string
  else if s = "java.sql.Date" then FieldType.string
  else if s = "java.sql.Time" then FieldType.string
  else if s = "java.sql.Timestamp" then FieldType.string
  else if s = "java.lang.UUID" then FieldType.string
  else if s = "org.apache.ignite.lang.IgniteUuid" then FieldType.string
  else FieldType.string

/-- The type tags with an explicit `case` in the switch. -/
def knownTags : List String :=
  ["java.lang.Boolean", "java.lang.Byte", "java.lang.Double", "java.lang.Float",
   "java.lang.Integer", "java.lang.Long", "java.lang.Short", "java.lang.String",
   "java.sql.Date", "java.sql.Time", "java.sql.Timestamp", "java.lang.UUID",
   "org.apache.ignite.lang.IgniteUuid"]

/-- `DataSource.getFields`: maps each metadata entry to a `{ name, type }`
descriptor. -/
def getFields (metadata : List FieldMeta) : List FieldDescriptor :=
  metadata.map fun field =>
    { name := field.fieldName, type := switchFieldType field.fieldTypeName }

/-- `frame.appendRow(row)`: appends one row to the frame. -/
def appendRow (frame : MutableDataFrame) (row : List JSVal) : MutableDataFrame :=
  { frame with rows := frame.rows ++ [row] }

/-- The response callback of the execution phase (`module.ts` lines 181-211):
on an error response the frame is empty; otherwise the fields come from the
metadata and every item row is appended in order. -/
def buildFrame (t : IgniteQuery) (result : RestResponse) : MutableDataFrame :=
  if result.successStatus != 0 || result.error != "" then
    { refId := t.refId, fields := [], rows := [] }
  else
    let metadata := result.response.fieldsMetadata
    let frame : MutableDataFrame :=
      { refId := t.refId, fields := getFields metadata, rows := [] }
    result.response.items.foldl (fun fr row => appendRow fr row) frame

/-! ### URL encoding of the SQL text

`module.ts` line 176: `encodeURIComponent(t.query || '').replace('%20', '+')`.
`encodeURIComponent` is modelled after its ECMAScript definition: unreserved
characters (ASCII alphanumerics and `- _ . ! ~ * ' ( )`) pass through, every
other character is replaced by the `%HH` escapes (uppercase hex) of its UTF-8
bytes. `String.prototype.replace` with a string pattern replaces only the
first occurrence of the pattern. -/

/-- Does `pat` match at the start of `s`? -/
def matchesAt (pat s : List Char) : Bool :=
  match pat, s with
  | [], _ => true
  | _ :: _, [] => false
  | p :: ps, c :: cs => p == c && matchesAt ps cs

/-- JavaScript `String.prototype.replace` with a (non-empty) string pattern:
the first occurrence of `pat` is replaced by `rep`; if `pat` does not occur,
the string is unchanged. -/
def jsReplaceOnce (pat rep : List Char) : List Char → List Char
  | [] => []
  | c :: rest =>
    if matchesAt pat (c :: rest) then rep ++ (c :: rest).drop pat.length
    else c :: jsReplaceOnce pat rep rest

/-- Number of positions at which `pat` occurs in `s`. -/
def countOcc (pat : List Char) : List Char → Nat
  | [] => 0
  | c :: rest => (if matchesAt pat (c :: rest) then 1 else 0) + countOcc pat rest

/-- The characters `encodeURIComponent` leaves unescaped. -/
def unreservedChar (c : Char) : Bool :=
  c.isAlpha || c.isDigit || ['-', '_', '.', '!', '~', '*', '\'', '(', ')'].contains c

/-- Uppercase hexadecimal digit. -/
def hexDigit (n : Nat) : Char :=
  if n < 10 then Char.ofNat (48 + n) else Char.ofNat (55 + n)

/-- The `%HH` escape of one byte. -/
def escapeByte (b : Nat) : List Char :=
  ['%', hexDigit (b / 16), hexDigit (b % 16)]

/-- The UTF-8 bytes of a unicode scalar value. -/
def utf8Bytes (c : Char) : List Nat :=
  let n := c.toNat
  if n < 0x80 then [n]
  else if n < 0x800 then [0xC0 + n / 0x40, 0x80 + n % 0x40]
  else if n < 0x10000 then
    [0xE0 + n / 0x1000, 0x80 + n / 0x40 % 0x40, 0x80 + n % 0x40]
  else
    [0xF0 + n / 0x40000, 0x80 + n / 0x1000 % 0x40, 0x80 + n / 0x40 % 0x40,
     0x80 + n % 0x40]

/-- `encodeURIComponent` on a single character. -/
def encodeChar (c : Char) : List Char :=
  if unreservedChar c then [c]
  else (utf8Bytes c).foldr (fun b acc => escapeByte b ++ acc) []

/-- `encodeURIComponent` on a character list. -/
def encodeList : List Char → List Char
  | [] => []
  | c :: rest => encodeChar c ++ encodeList rest

/-- The encoded space, the pattern of the `replace` call. -/
def pat20 : List Char := ['%', '2', '0']

/-- The string placed into the `qry` URL parameter:
`encodeURIComponent(q).replace('%20', '+')`. -/
def qryParam (q : String) : String :=
  String.mk (jsReplaceOnce pat20 ['+'] (encodeList q.data))

/-! ### The query pipeline -/

/-- One GET request issued by the pipeline, tagged by its call site:
the size (cache-existence) check of STEP #2 or the `qryfldexe` execution call
of STEP #3. The carried string is the request URL. -/
inductive RestCall where
  | sizeCheck (url : String)
  | qryExec (url : String)
deriving DecidableEq

/-- Is a recorded call an execution call? -/
def isQryExec : RestCall → Bool
  | RestCall.qryExec _ => true
  | RestCall.sizeCheck _ => false

/-- The URLs of the size-check calls of a trace, in order. -/
def sizeUrlsOf (trace : List RestCall) : List String :=
  trace.filterMap fun c =>
    match c with
    | RestCall.sizeCheck u => some u
    | RestCall.qryExec _ => none

/-- `this.PAGE_SIZE` (`module.ts` line 81). -/
def PAGE_SIZE : Nat := 1024

/-- The cache-existence check URL (`module.ts` line 152). -/
def sizeUrl (c : String) : String := "/ignite?cmd=size&cacheName=" ++ c

/-- The execution request URL (`module.ts` lines 171-177). -/
def execUrl (t : IgniteQuery) : String :=
  "/ignite?cmd=qryfldexe&cacheName=" ++ jsStr t.cacheName ++ "&pageSize="
    ++ toString PAGE_SIZE ++ "&qry=" ++ qryParam (t.query.getD "")

/-- Message of the throw at `module.ts` line 137. -/
def noValidTargetsMsg : String :=
  "Please check your query configuration. No valid query targets found."

/-- Message of the throw at `module.ts` line 160. -/
def cacheNotFoundMsg : String :=
  "At least one of the provided caches does not exist."

deriving instance DecidableEq for Except

/-- Outcome of one `query` call: the value returned (or the thrown string),
plus the trace of GET requests issued. The successful value is the `data`
collection resolved by `Promise.all(promises)`; each element is an `Option`
because a JavaScript array slot can hold `undefined`. -/
structure QueryOutcome where
  result : Except String (List (Option MutableDataFrame))
  trace : List RestCall
deriving DecidableEq

/-- `DataSource.query` (`module.ts` lines 92-217), with the network modelled
as an oracle from request URLs to responses.

STEP #3 note: in the source the `filtered.map((t) => ...)` callback builds the
promise chain `this._get(requestUrl).toPromise().then(result => ... frame)`
but does not return it, so the mapped value of every element is `undefined`
and `Promise.all(promises)` resolves to a collection of `undefined` slots.
The frame computed by the response callback is `buildFrame t (net (execUrl t))`;
it is bound here and then discarded, exactly as the source discards it. -/
def queryRun (targets : List IgniteQuery) (net : String → RestResponse) :
    QueryOutcome :=
  let filtered := validTargets targets
  if filtered.length = 0 then
    { result := Except.error noValidTargetsMsg, trace := [] }
  else
    let caches := filtered.map fun t => t.cacheName
    let checkUrls := caches.map fun c => sizeUrl (jsStr c)
    let response := checkUrls.map net
    let errors := response.filter fun r => r.successStatus != 0 || r.error != ""
    if errors.length ≠ 0 then
      { result := Except.error cacheNotFoundMsg,
        trace := checkUrls.map RestCall.sizeCheck }
    else
      let promises := filtered.map fun t =>
        let _frame := buildFrame t (net (execUrl t))
        (none : Option MutableDataFrame)
      { result := Except.ok promises,
        trace := checkUrls.map RestCall.sizeCheck
          ++ filtered.map fun t => RestCall.qryExec (execUrl t) }

/-! ### The health probe -/

/-- A JavaScript thrown value as seen by the `catch` of `testDatasource`:
either an `Error` object (with a `message` property) from the transport
layer, or a thrown string primitive. -/
inductive Thrown where
  | jsError (msg : String)
  | jsString (s : String)
deriving DecidableEq

/-- The JavaScript property access `err.message`: an `Error` yields its
message, a string primitive has no `message` property, so the access yields
`undefined` (`none`). -/
def Thrown.message : Thrown → Option String
  | Thrown.jsError m => some m
  | Thrown.jsString _ => none

/-- The `data` of the version response: `{ error, successStatus }`. `error`
is a `JSVal` because the check compares it against `null` with `===`. -/
structure VersionData where
  error : JSVal
  successStatus : Int
deriving DecidableEq

/-- The `{ status, message }` record returned by `testDatasource`. The
message is an `Option` because it can be `undefined`. -/
structure TestResult where
  status : String
  message : Option String
deriving DecidableEq

/-- `DataSource.testDatasource` (`module.ts` lines 333-372). The argument is
the outcome of awaiting the version request: a thrown value on transport
failure, or the response `data`. The internal
`throw 'Failed to connect to Apache Ignite.'` is caught by the local `catch`,
whose result carries `err.message`. -/
def testDatasource (outcome : Except Thrown VersionData) : TestResult :=
  match outcome with
  | Except.error err => { status := "failure", message := err.message }
  | Except.ok data =>
    if data.error = JSVal.null ∨ data.successStatus = 0 then
      { status := "success",
        message := some "Successfully connected to Apache Ignite." }
    else
      { status := "failure",
        message := (Thrown.jsString "Failed to connect to Apache Ignite.").message }

/-! ### Concrete fixtures used by witnesses and counterexamples -/

/-- A well-formed table target on cache `person`. -/
def tA : IgniteQuery :=
  { refId := "A", cacheName := some "person", format := some FormatTypeValue.TABLE,
    timeColumn := none, query := some "select NAME from person" }

/-- A second well-formed target on the same cache. -/
def tB : IgniteQuery :=
  { refId := "B", cacheName := some "person", format := some FormatTypeValue.TABLE,
    timeColumn := none, query := some "select 1" }

/-- A target with an empty cache name, rejected by the validator. -/
def tBad : IgniteQuery :=
  { refId := "C", cacheName := some "", format := some FormatTypeValue.TABLE,
    timeColumn := none, query := some "select 1" }

/-- A one-field, one-row execution payload. -/
def demoPayload : ExecPayload :=
  { fieldsMetadata := [{ fieldName := "NAME", fieldTypeName := "java.lang.String" }],
    items := [[JSVal.str "Alice"]] }

/-- A network on which every request succeeds with `demoPayload`. -/
def okNet : String → RestResponse :=
  fun _ => { successStatus := 0, error := "", response := demoPayload }

/-- A network on which every request reports `successStatus = 1`. -/
def badNet : String → RestResponse :=
  fun _ => { successStatus := 1, error := "",
             response := { fieldsMetadata := [], items := [] } }

/-- An error execution response carrying a non-empty payload. -/
def badResp : RestResponse :=
  { successStatus := 1, error := "", response := demoPayload }

/-! ### Validator lemmas -/

/-- The three chained filters equal one filter by the conjunction of the
format-dependent required-field predicates. -/
theorem validTargets_eq (ts : List IgniteQuery) :
    validTargets ts = ts.filter specValidTarget := by
  unfold validTargets
  rw [List.filter_filter, List.filter_filter]
  apply List.filter_congr
  intro t _
  rcases t with ⟨r, c, f, tc, q⟩
  rcases f with _ | f
  · cases c <;> cases q <;>
      simp [validQuery, validFormat, validCache, specValidTarget]
  · cases f <;> cases c <;> cases q <;> cases tc <;>
      simp [validQuery, validFormat, validCache, specValidTarget,
        Bool.and_comm, Bool.and_assoc, Bool.and_left_comm]

/-- C3: the Validator's output is exactly the stable filter of the input by
the four required-field predicates: `cacheName` defined and non-empty,
`format` defined, `timeColumn` defined and non-empty when the format is
`TIMESERIES`, and `query` defined and non-empty; relative order is
preserved and every surviving target satisfies the predicates. -/
theorem validator_eq_spec_filter (ts : List IgniteQuery) :
    validTargets ts = ts.filter specValidTarget
    ∧ (validTargets ts).Sublist ts
    ∧ ∀ t ∈ validTargets ts, specValidTarget t = true := by
  refine ⟨validTargets_eq ts, ?_, ?_⟩
  · rw [validTargets_eq]
    exact List.filter_sublist ts
  · intro t ht
    rw [validTargets_eq] at ht
    exact (List.mem_filter.mp ht).2

/-- Witness for C3 at a concrete batch: `tA` survives validation of
`[tA, tBad]` and satisfies the spec predicate. -/
theorem validator_eq_spec_filter_witness : specValidTarget tA = true :=
  (validator_eq_spec_filter [tA, tBad]).2.2 tA (by decide)

/-- C4: a batch whose validated sequence is empty fails with the fixed
no-valid-targets message and issues no network request at all. -/
theorem empty_validation_throws (targets : List IgniteQuery)
    (net : String → RestResponse) (h : validTargets targets = []) :
    queryRun targets net
      = { result := Except.error noValidTargetsMsg, trace := [] } := by
  simp [queryRun, h]

/-- Witness for C4: the batch `[tBad]` validates to nothing and throws. -/
theorem empty_validation_throws_witness :
    validTargets [tBad] = []
    ∧ queryRun [tBad] okNet
        = { result := Except.error noValidTargetsMsg, trace := [] } :=
  ⟨by decide, empty_validation_throws [tBad] okNet (by decide)⟩

/-- Folding `appendRow` over a row list appends it to the frame's rows and
changes nothing else. -/
theorem foldl_appendRow (rows : List (List JSVal)) (fr : MutableDataFrame) :
    rows.foldl (fun f r => appendRow f r) fr
      = { refId := fr.refId, fields := fr.fields, rows := fr.rows ++ rows } := by
  induction rows generalizing fr with
  | nil => simp
  | cons r rs ih =>
    rw [List.foldl_cons, ih]
    simp [appendRow]

/-- C5: an execution response with `successStatus != 0` or `error != ''`
yields, for its own target only, a frame with that target's `refId`, zero
field descriptors and zero rows, whatever the payload contains. -/
theorem execError_yields_empty_frame (t : IgniteQuery) (r : RestResponse)
    (h : r.successStatus ≠ 0 ∨ r.error ≠ "") :
    buildFrame t r = { refId := t.refId, fields := [], rows := [] } := by
  have hc : (r.successStatus != 0 || r.error != "") = true := by
    rcases h with h | h <;> simp [h]
  simp [buildFrame, hc]

/-- Witness for C5: a `successStatus = 1` response with a non-empty payload
still produces the empty frame. -/
theorem execError_yields_empty_frame_witness :
    (1 : Int) ≠ 0
    ∧ buildFrame tA badResp = { refId := "A", fields := [], rows := [] } :=
  ⟨by decide, execError_yields_empty_frame tA badResp (Or.inl (by decide))⟩

/-- C6: a successful execution response yields a frame with one field
descriptor per metadata entry, in order, carrying the entry's `fieldName`
and the inferred type, and with the item rows appended in source order;
when every item row has the metadata arity, every frame row does too. -/
theorem execSuccess_frame_shape (t : IgniteQuery) (r : RestResponse)
    (h0 : r.successStatus = 0) (h1 : r.error = "")
    (harity : ∀ row ∈ r.response.items,
      row.length = r.response.fieldsMetadata.length) :
    (buildFrame t r).refId = t.refId
    ∧ (buildFrame t r).fields.length = r.response.fieldsMetadata.length
    ∧ (∀ i : Nat, (buildFrame t r).fields[i]?
        = (r.response.fieldsMetadata[i]?).map
            fun m => { name := m.fieldName, type := switchFieldType m.fieldTypeName })
    ∧ (buildFrame t r).rows = r.response.items
    ∧ ∀ row ∈ (buildFrame t r).rows, row.length = (buildFrame t r).fields.length := by
  have hb : buildFrame t r
      = { refId := t.refId, fields := getFields r.response.fieldsMetadata,
          rows := r.response.items } := by
    have hc : (r.successStatus != 0 || r.error != "") = false := by
      simp [h0, h1]
    simp [buildFrame, hc, foldl_appendRow]
  refine ⟨by rw [hb], by rw [hb]; simp [getFields], ?_, by rw [hb], ?_⟩
  · intro i
    rw [hb]
    simp [getFields]
  · intro row hrow
    rw [hb] at hrow ⊢
    simpa [getFields] using harity row hrow

/-- Witness for C6: the demo payload yields the frame with one string field
named `NAME` and the single row `["Alice"]`. -/
theorem execSuccess_frame_shape_witness :
    (buildFrame tA (okNet (execUrl tA))).rows = demoPayload.items
    ∧ (buildFrame tA (okNet (execUrl tA))).fields.length = 1 :=
  ⟨(execSuccess_frame_shape tA (okNet (execUrl tA)) rfl rfl (by decide)).2.2.2.1,
   (execSuccess_frame_shape tA (okNet (execUrl tA)) rfl rfl (by decide)).2.1⟩

/-- C7: the field-type inference of `getFields`: `boolean` for the boolean
tag, `number` for byte, double, float, integer, long and short, `string` for
the string tag, the raw date, time and timestamp tags, both UUID flavours,
and `string` as default for every tag without an explicit case. -/
theorem fieldType_inference_table :
    (switchFieldType "java.lang.Boolean" = FieldType.boolean
      ∧ switchFieldType "java.lang.Byte" = FieldType.number
      ∧ switchFieldType "java.lang.Double" = FieldType.number
      ∧ switchFieldType "java.lang.Float" = FieldType.number
      ∧ switchFieldType "java.lang.Integer" = FieldType.number
      ∧ switchFieldType "java.lang.Long" = FieldType.number
      ∧ switchFieldType "java.lang.Short" = FieldType.number
      ∧ switchFieldType "java.lang.String" = FieldType.string
      ∧ switchFieldType "java.sql.Date" = FieldType.string
      ∧ switchFieldType "java.sql.Time" = FieldType.string
      ∧ switchFieldType "java.sql.Timestamp" = FieldType.string
      ∧ switchFieldType "java.lang.UUID" = FieldType.string
      ∧ switchFieldType "org.apache.ignite.lang.IgniteUuid" = FieldType.string)
    ∧ ∀ s, s ∉ knownTags → switchFieldType s = FieldType.string := by
  constructor
  · decide
  · intro s hs
    simp only [knownTags, List.mem_cons, List.not_mem_nil, or_false, not_or] at hs
    obtain ⟨n1, n2, n3, n4, n5, n6, n7, n8, n9, n10, n11, n12, n13⟩ := hs
    simp [switchFieldType, n1, n2, n3, n4, n5, n6, n7, n8, n9, n10, n11, n12, n13]

/-- Witness for C7's default case: an unknown tag maps to `string`. -/
theorem fieldType_inference_table_witness :
    switchFieldType "java.sql.Blob" = FieldType.string :=
  fieldType_inference_table.2 "java.sql.Blob" (by decide)

/-! ### Trace lemmas -/

/-- Extracting the size-check URLs of a pure size-check trace. -/
theorem sizeUrlsOf_map_sizeCheck (urls : List String) :
    sizeUrlsOf (urls.map RestCall.sizeCheck) = urls := by
  induction urls with
  | nil => rfl
  | cons u us ih => simp [sizeUrlsOf, List.filterMap_cons] at ih ⊢; exact ih

/-- A trace of execution calls contributes no size-check URLs. -/
theorem sizeUrlsOf_map_qryExec {α : Type} (f : α → String) (l : List α) :
    sizeUrlsOf (l.map fun a => RestCall.qryExec (f a)) = [] := by
  induction l with
  | nil => rfl
  | cons a as ih => simp [sizeUrlsOf, List.filterMap_cons, ih]

/-- `sizeUrlsOf` distributes over trace concatenation. -/
theorem sizeUrlsOf_append (a b : List RestCall) :
    sizeUrlsOf (a ++ b) = sizeUrlsOf a ++ sizeUrlsOf b := by
  unfold sizeUrlsOf
  exact List.filterMap_append a b _

/-- C2: if any cache-existence check response fails the
`successStatus == 0 && error == ''` contract, the whole batch fails with the
aggregate cache-not-found message and the trace contains zero execution
calls. -/
theorem cacheFail_aborts_execution (targets : List IgniteQuery)
    (net : String → RestResponse) (hne : validTargets targets ≠ [])
    (hbad : (((validTargets targets).map fun t =>
        net (sizeUrl (jsStr t.cacheName))).any
        fun r => r.successStatus != 0 || r.error != "") = true) :
    (queryRun targets net).result = Except.error cacheNotFoundMsg
    ∧ (queryRun targets net).trace.countP isQryExec = 0 := by
  have hlen : ¬(validTargets targets).length = 0 := by
    simpa [List.length_eq_zero] using hne
  have herr : ¬(((validTargets targets).map fun t =>
      net (sizeUrl (jsStr t.cacheName))).filter
      (fun r => r.successStatus != 0 || r.error != "")).length = 0 := by
    rcases List.any_eq_true.mp hbad with ⟨r, hr, hpr⟩
    have hmem : r ∈ ((validTargets targets).map fun t =>
        net (sizeUrl (jsStr t.cacheName))).filter
        (fun r => r.successStatus != 0 || r.error != "") :=
      List.mem_filter.mpr ⟨hr, hpr⟩
    intro h0
    rw [List.length_eq_zero] at h0
    rw [h0] at hmem
    exact List.not_mem_nil r hmem
  have hq : queryRun targets net
      = { result := Except.error cacheNotFoundMsg,
          trace := ((validTargets targets).map fun t =>
            sizeUrl (jsStr t.cacheName)).map RestCall.sizeCheck } := by
    simp only [queryRun]
    rw [if_neg hlen]
    rw [if_pos (by simpa [List.map_map, Function.comp_def] using herr)]
    simp [List.map_map, Function.comp_def]
  rw [hq]
  refine ⟨rfl, ?_⟩
  rw [List.countP_eq_zero]
  intro c hc
  rcases List.mem_map.mp hc with ⟨u, _, rfl⟩
  simp [isQryExec]

/-- Witness for C2: a single-target batch on `badNet` throws the
cache-not-found message and records no execution call. -/
theorem cacheFail_aborts_execution_witness :
    validTargets [tA] ≠ []
    ∧ (queryRun [tA] badNet).result = Except.error cacheNotFoundMsg
    ∧ (queryRun [tA] badNet).trace.countP isQryExec = 0 :=
  ⟨by decide,
   (cacheFail_aborts_execution [tA] badNet (by decide) (by decide)).1,
   (cacheFail_aborts_execution [tA] badNet (by decide) (by decide)).2⟩

/-- C1 (code bug): on a well-formed single-target batch whose every request
succeeds, `query` resolves with a collection holding `undefined` (the
`filtered.map` callback never returns the promise it builds), although the
frame constructed by the response callback for the same target is a complete
one-field, one-row frame keyed by the target's `refId`. -/
theorem query_resolves_with_undefined_slots :
    (queryRun [tA] okNet).result = Except.ok [none]
    ∧ buildFrame tA (okNet (execUrl tA))
        = { refId := "A",
            fields := [{ name := "NAME", type := FieldType.string }],
            rows := [[JSVal.str "Alice"]] } := by
  constructor <;> decide

/-- C8 (counterexample): two validated targets sharing the cache name
`person` cause two size checks, although they reference a single distinct
cache name. -/
theorem duplicate_cache_two_checks :
    (sizeUrlsOf ((queryRun [tA, tB] okNet).trace)).length = 2
    ∧ ((((validTargets [tA, tB]).map fun t => jsStr t.cacheName)).dedup).length = 1 := by
  constructor <;> decide

/-- C8 (amended): the executor issues exactly one cache-existence check per
validated target, in validation order, without deduplicating cache names. -/
theorem one_check_per_validated_target (targets : List IgniteQuery)
    (net : String → RestResponse) (hne : validTargets targets ≠ []) :
    sizeUrlsOf ((queryRun targets net).trace)
      = (validTargets targets).map fun t => sizeUrl (jsStr t.cacheName) := by
  have hlen : ¬(validTargets targets).length = 0 := by
    simpa [List.length_eq_zero] using hne
  simp only [queryRun]
  rw [if_neg hlen]
  split
  · dsimp only
    rw [sizeUrlsOf_map_sizeCheck]
    simp [List.map_map, Function.comp_def]
  · dsimp only
    rw [sizeUrlsOf_append, sizeUrlsOf_map_sizeCheck, sizeUrlsOf_map_qryExec]
    simp [List.map_map, Function.comp_def]

/-- Witness for C8's amended statement: the two-target batch issues two
checks for `person`, in order. -/
theorem one_check_per_validated_target_witness :
    sizeUrlsOf ((queryRun [tA, tB] okNet).trace)
      = [sizeUrl "person", sizeUrl "person"] := by
  rw [one_check_per_validated_target [tA, tB] okNet (by decide)]
  decide

/-- C10 (counterexample): when the version-check data fails the success test,
the probe's failure message is `undefined` (`none`), not the message text of
the thrown error — the code throws a plain string, which has no `message`
property. -/
theorem probe_failure_message_is_undefined :
    testDatasource (Except.ok { error := JSVal.str "oops", successStatus := 1 })
      = { status := "failure", message := none } := by
  decide

/-- C10 (amended): the probe returns success exactly on
`data.error === null || data.successStatus == 0`; a transport failure is
caught and reported with the thrown value's `message` property, while a
failed version check reports `message = undefined`, because the thrown value
is a plain string. -/
theorem probe_status_and_message (e : Thrown) (d : VersionData) :
    testDatasource (Except.error e) = { status := "failure", message := e.message }
    ∧ (d.error = JSVal.null ∨ d.successStatus = 0 →
        testDatasource (Except.ok d)
          = { status := "success",
              message := some "Successfully connected to Apache Ignite." })
    ∧ (d.error ≠ JSVal.null → d.successStatus ≠ 0 →
        testDatasource (Except.ok d) = { status := "failure", message := none }) := by
  refine ⟨rfl, ?_, ?_⟩
  · intro h
    simp [testDatasource, h]
  · intro h1 h2
    have hcond : ¬(d.error = JSVal.null ∨ d.successStatus = 0) := by
      rintro (h | h)
      · exact h1 h
      · exact h2 h
    simp [testDatasource, hcond, Thrown.message]

/-! ### Lemmas on the `%20` structure of `encodeURIComponent` output

A `%` in the encoder's output only appears as the head of a complete `%HH`
escape triple, and the triple `%20` appears exactly for the space character.
These lemmas let the replace-first and occurrence-count reasoning step over
the encoding of any space-free prefix. -/

/-- An uppercase hex digit is never `%`. -/
theorem hexDigit_ne_pct : ∀ n < 16, hexDigit n ≠ '%' := by decide

/-- Only `2` hex-encodes to the digit `2`. -/
theorem hexDigit_eq_two : ∀ n < 16, hexDigit n = '2' → n = 2 := by decide

/-- Only `0` hex-encodes to the digit `0`. -/
theorem hexDigit_eq_zero : ∀ n < 16, hexDigit n = '0' → n = 0 := by decide

/-- The pattern `%20` does not match at a position holding a non-`%`
character, so `replace` walks past it. -/
theorem replaceOnce_cons_ne (rep : List Char) (c : Char) (w : List Char)
    (hc : c ≠ '%') :
    jsReplaceOnce pat20 rep (c :: w) = c :: jsReplaceOnce pat20 rep w := by
  have hb : ('%' == c) = false := beq_eq_false_iff_ne.mpr (Ne.symm hc)
  simp [jsReplaceOnce, pat20, matchesAt, hb]

/-- Occurrence counting also walks past a non-`%` character. -/
theorem countOcc_cons_ne (c : Char) (w : List Char) (hc : c ≠ '%') :
    countOcc pat20 (c :: w) = countOcc pat20 w := by
  have hb : ('%' == c) = false := beq_eq_false_iff_ne.mpr (Ne.symm hc)
  simp [countOcc, pat20, matchesAt, hb]

/-- The escape triple of a byte other than `0x20` never matches `%20`,
at its head or inside, so `replace` copies it verbatim. -/
theorem replaceOnce_escape (rep : List Char) (b : Nat) (hb : b < 256)
    (h32 : b ≠ 32) (w : List Char) :
    jsReplaceOnce pat20 rep (escapeByte b ++ w)
      = escapeByte b ++ jsReplaceOnce pat20 rep w := by
  have hd1 : b / 16 < 16 := by omega
  have hd2 : b % 16 < 16 := by omega
  have hx1 : hexDigit (b / 16) ≠ '%' := hexDigit_ne_pct _ hd1
  have hx2 : hexDigit (b % 16) ≠ '%' := hexDigit_ne_pct _ hd2
  have hm : matchesAt pat20 ('%' :: hexDigit (b / 16) :: hexDigit (b % 16) :: w)
      = false := by
    by_cases e1 : hexDigit (b / 16) = '2'
    · by_cases e2 : hexDigit (b % 16) = '0'
      · exfalso
        have q1 := hexDigit_eq_two _ hd1 e1
        have q2 := hexDigit_eq_zero _ hd2 e2
        omega
      · have : ('0' == hexDigit (b % 16)) = false :=
          beq_eq_false_iff_ne.mpr (Ne.symm e2)
        simp [pat20, matchesAt, this]
    · have : ('2' == hexDigit (b / 16)) = false :=
        beq_eq_false_iff_ne.mpr (Ne.symm e1)
      simp [pat20, matchesAt, this]
  show jsReplaceOnce pat20 rep
      ('%' :: hexDigit (b / 16) :: hexDigit (b % 16) :: w) = _
  rw [jsReplaceOnce, if_neg (by simp [hm])]
  rw [replaceOnce_cons_ne rep _ _ hx1, replaceOnce_cons_ne rep _ _ hx2]
  rfl

/-- The escape triple of a byte other than `0x20` contributes no `%20`
occurrence. -/
theorem countOcc_escape (b : Nat) (hb : b < 256) (h32 : b ≠ 32)
    (w : List Char) :
    countOcc pat20 (escapeByte b ++ w) = countOcc pat20 w := by
  have hd1 : b / 16 < 16 := by omega
  have hd2 : b % 16 < 16 := by omega
  have hx1 : hexDigit (b / 16) ≠ '%' := hexDigit_ne_pct _ hd1
  have hx2 : hexDigit (b % 16) ≠ '%' := hexDigit_ne_pct _ hd2
  have hm : matchesAt pat20 ('%' :: hexDigit (b / 16) :: hexDigit (b % 16) :: w)
      = false := by
    by_cases e1 : hexDigit (b / 16) = '2'
    · by_cases e2 : hexDigit (b % 16) = '0'
      · exfalso
        have q1 := hexDigit_eq_two _ hd1 e1
        have q2 := hexDigit_eq_zero _ hd2 e2
        omega
      · have : ('0' == hexDigit (b % 16)) = false :=
          beq_eq_false_iff_ne.mpr (Ne.symm e2)
        simp [pat20, matchesAt, this]
    · have : ('2' == hexDigit (b / 16)) = false :=
        beq_eq_false_iff_ne.mpr (Ne.symm e1)
      simp [pat20, matchesAt, this]
  show countOcc pat20 ('%' :: hexDigit (b / 16) :: hexDigit (b % 16) :: w) = _
  rw [countOcc, if_neg (by simp [hm])]
  rw [countOcc_cons_ne _ _ hx1, countOcc_cons_ne _ _ hx2]
  omega

/-- Every UTF-8 byte of a non-space character is a byte other than `0x20`. -/
theorem utf8Bytes_good (c : Char) (hc : c ≠ ' ') :
    ∀ b ∈ utf8Bytes c, b < 256 ∧ b ≠ 32 := by
  intro b hb
  have hn32 : c.toNat ≠ 32 := by
    intro h
    apply hc
    have h2 : Char.ofNat c.toNat = Char.ofNat 32 := by rw [h]
    rw [Char.ofNat_toNat] at h2
    rw [h2]
  have hlt : c.toNat < 1114112 := by
    have e : c.toNat = c.val.toNat := rfl
    rcases c.valid with h | ⟨h1, h2⟩
    · have : c.val.toNat < 0xd800 := h
      omega
    · have : c.val.toNat < 0x110000 := h2
      omega
  unfold utf8Bytes at hb
  dsimp only at hb
  split_ifs at hb with h1 h2 h3 <;> simp at hb <;> rcases hb with rfl | hb <;>
    try rcases hb with rfl | hb <;> try rcases hb with rfl | rfl
  all_goals omega

/-- `replace` copies the whole escape block of a byte list without `0x20`
bytes. -/
theorem replaceOnce_escBlock (bs : List Nat)
    (hg : ∀ b ∈ bs, b < 256 ∧ b ≠ 32) (rep w : List Char) :
    jsReplaceOnce pat20 rep (bs.foldr (fun b acc => escapeByte b ++ acc) [] ++ w)
      = bs.foldr (fun b acc => escapeByte b ++ acc) []
          ++ jsReplaceOnce pat20 rep w := by
  induction bs with
  | nil => simp
  | cons b bs ih =>
    have hb := hg b (List.mem_cons_self b bs)
    simp only [List.foldr_cons, List.append_assoc]
    rw [replaceOnce_escape rep b hb.1 hb.2,
      ih fun x hx => hg x (List.mem_cons_of_mem _ hx)]

/-- The escape block of a byte list without `0x20` bytes holds no `%20`. -/
theorem countOcc_escBlock (bs : List Nat)
    (hg : ∀ b ∈ bs, b < 256 ∧ b ≠ 32) (w : List Char) :
    countOcc pat20 (bs.foldr (fun b acc => escapeByte b ++ acc) [] ++ w)
      = countOcc pat20 w := by
  induction bs with
  | nil => simp
  | cons b bs ih =>
    have hb := hg b (List.mem_cons_self b bs)
    simp only [List.foldr_cons, List.append_assoc]
    rw [countOcc_escape b hb.1 hb.2,
      ih fun x hx => hg x (List.mem_cons_of_mem _ hx)]

/-- `replace` copies the encoding of any non-space character. -/
theorem replaceOnce_encodeChar (c : Char) (hc : c ≠ ' ') (rep w : List Char) :
    jsReplaceOnce pat20 rep (encodeChar c ++ w)
      = encodeChar c ++ jsReplaceOnce pat20 rep w := by
  unfold encodeChar
  split_ifs with hu
  · have hpc : c ≠ '%' := by
      intro e
      rw [e] at hu
      exact absurd hu (by decide)
    simpa using replaceOnce_cons_ne rep c w hpc
  · exact replaceOnce_escBlock (utf8Bytes c) (utf8Bytes_good c hc) rep w

/-- The encoding of a non-space character holds no `%20`. -/
theorem countOcc_encodeChar (c : Char) (hc : c ≠ ' ') (w : List Char) :
    countOcc pat20 (encodeChar c ++ w) = countOcc pat20 w := by
  unfold encodeChar
  split_ifs with hu
  · have hpc : c ≠ '%' := by
      intro e
      rw [e] at hu
      exact absurd hu (by decide)
    simpa using countOcc_cons_ne c w hpc
  · exact countOcc_escBlock (utf8Bytes c) (utf8Bytes_good c hc) w

/-- `encodeURIComponent` distributes over concatenation. -/
theorem encodeList_append (a b : List Char) :
    encodeList (a ++ b) = encodeList a ++ encodeList b := by
  induction a with
  | nil => rfl
  | cons c a ih => simp [encodeList, ih]

/-- `replace` walks past the encoding of any space-free prefix. -/
theorem replaceOnce_encodeList (s : List Char) (hs : ' ' ∉ s)
    (rep w : List Char) :
    jsReplaceOnce pat20 rep (encodeList s ++ w)
      = encodeList s ++ jsReplaceOnce pat20 rep w := by
  induction s with
  | nil => rfl
  | cons c s ih =>
    have hc : c ≠ ' ' := fun e => hs (e ▸ List.mem_cons_self c s)
    have hs2 : ' ' ∉ s := fun m => hs (List.mem_cons_of_mem _ m)
    simp only [encodeList, List.append_assoc]
    rw [replaceOnce_encodeChar c hc, ih hs2]

/-- The encoding of a space-free string followed by anything holds exactly
the `%20` occurrences of the suffix. -/
theorem countOcc_encodeList_skip (s : List Char) (hs : ' ' ∉ s)
    (w : List Char) :
    countOcc pat20 (encodeList s ++ w) = countOcc pat20 w := by
  induction s with
  | nil => rfl
  | cons c s ih =>
    have hc : c ≠ ' ' := fun e => hs (e ▸ List.mem_cons_self c s)
    have hs2 : ' ' ∉ s := fun m => hs (List.mem_cons_of_mem _ m)
    simp only [encodeList, List.append_assoc]
    rw [countOcc_encodeChar c hc, ih hs2]

/-- The space encodes to exactly `%20`. -/
theorem encodeChar_space : encodeChar ' ' = pat20 := by decide

/-- `replace` rewrites a leading `%20` to `+` and leaves the rest alone. -/
theorem replaceOnce_at_space (w : List Char) :
    jsReplaceOnce pat20 ['+'] (pat20 ++ w) = '+' :: w := by
  show jsReplaceOnce pat20 ['+'] ('%' :: '2' :: '0' :: w) = '+' :: w
  rw [jsReplaceOnce, if_pos (by simp [pat20, matchesAt])]
  simp [pat20]

/-- A leading `%20` is one occurrence; the two characters after the `%` start
none. -/
theorem countOcc_at_space (w : List Char) :
    countOcc pat20 (pat20 ++ w) = 1 + countOcc pat20 w := by
  show countOcc pat20 ('%' :: '2' :: '0' :: w) = 1 + countOcc pat20 w
  rw [countOcc, if_pos (by simp [pat20, matchesAt])]
  rw [countOcc_cons_ne '2' _ (by decide), countOcc_cons_ne '0' _ (by decide)]

/-- The `%20` occurrences in the encoding of a text are exactly its spaces. -/
theorem countOcc_encodeList (s : List Char) :
    countOcc pat20 (encodeList s) = s.count ' ' := by
  induction s with
  | nil => rfl
  | cons c s ih =>
    by_cases hc : c = ' '
    · subst hc
      show countOcc pat20 (encodeChar ' ' ++ encodeList s) = _
      rw [encodeChar_space, countOcc_at_space, ih]
      simp [List.count_cons]
      omega
    · show countOcc pat20 (encodeChar c ++ encodeList s) = _
      rw [countOcc_encodeChar c hc, ih]
      simp [List.count_cons, hc]

/-- C9: for a query text whose first space splits it as `a ++ ' ' ++ b`, the
string placed in the `qry` parameter is the percent-encoding with only that
first encoded space turned into `+`: the output is
`encode(a) ++ "+" ++ encode(b)`, the suffix `encode(b)` still holds one
`%20` per remaining space, and a space-free text passes through with no
replacement. -/
theorem qry_replaces_only_first_space (a b : List Char) (ha : ' ' ∉ a) :
    qryParam (String.mk (a ++ ' ' :: b))
      = String.mk (encodeList a ++ '+' :: encodeList b)
    ∧ countOcc pat20 (encodeList b) = b.count ' '
    ∧ qryParam (String.mk a) = String.mk (encodeList a) := by
  refine ⟨?_, countOcc_encodeList b, ?_⟩
  · apply congrArg String.mk
    show jsReplaceOnce pat20 ['+'] (encodeList (a ++ ' ' :: b)) = _
    rw [encodeList_append]
    show jsReplaceOnce pat20 ['+']
        (encodeList a ++ (encodeChar ' ' ++ encodeList b)) = _
    rw [encodeChar_space, replaceOnce_encodeList a ha, replaceOnce_at_space]
  · apply congrArg String.mk
    show jsReplaceOnce pat20 ['+'] (encodeList a) = encodeList a
    have h := replaceOnce_encodeList a ha ['+'] []
    simpa [jsReplaceOnce] using h

/-- Witness for C9 on the text `a b c`: the first space becomes `+`, the
second stays `%20`. -/
theorem qry_replaces_only_first_space_witness :
    (' ' ∉ ['a'])
    ∧ qryParam (String.mk (['a'] ++ ' ' :: ['b', ' ', 'c']))
        = String.mk (encodeList ['a'] ++ '+' :: encodeList ['b', ' ', 'c']) :=
  ⟨by decide, (qry_replaces_only_first_space ['a'] ['b', ' ', 'c'] (by decide)).1⟩

/-- Concrete sanity check of the quirk: `a b c` is sent as `a+b%20c`. -/
theorem qryParam_demo :
    qryParam (String.mk ['a', ' ', 'b', ' ', 'c'])
      = String.mk ['a', '+', 'b', '%', '2', '0', 'c'] := by
  decide

/-- Witness for C10's amended statement: a transport error carries its
message through; a check failure yields an undefined message. -/
theorem probe_status_and_message_witness :
    testDatasource (Except.error (Thrown.jsError "boom"))
      = { status := "failure", message := some "boom" }
    ∧ testDatasource (Except.ok { error := JSVal.str "x", successStatus := 7 })
      = { status := "failure", message := none } :=
  ⟨(probe_status_and_message (Thrown.jsError "boom")
      { error := JSVal.str "x", successStatus := 7 }).1,
   (probe_status_and_message (Thrown.jsError "boom")
      { error := JSVal.str "x", successStatus := 7 }).2.2 (by decide) (by decide)⟩
